import Mathlib

/-!
Verification development for the invite-acceptance and organization-membership
reconciliation protocol of a practice-management web client.

The embedding below is a shallow model of `src/pages/AcceptInvite.tsx`
(the accept-invite controller) together with the `setOrg` operation of
`src/scope/ScopeContext.tsx`.  The remote document store (Firestore) is
modelled as a record of keyed partial maps; `localStorage` as a record of the
two resume-pointer keys; the authenticated identity as an explicit optional
`User`.  Remote operations that the source wraps in `try`/`catch` (or whose
failure the claims discuss) are driven by an explicit failure `Oracle`.
`serverTimestamp()` is modelled as the sentinel value the client SDK actually
sends (`TimeVal.serverTimestamp`); the server-side resolution of the sentinel
is outside the client code being modelled.

Every run returns, besides the final stores, a `trace` of the operations it
performed, in program order: reads, localStorage sets/removes, and the remote
writes that took effect.  A write that the oracle makes fail does not appear
in the trace (it did not take effect); the read events appear whether or not
the oracle fails them (the call was issued).
-/

namespace AcceptInvite

/-- JavaScript `x || ""` for a string-or-null value. -/
def jsStr (o : Option String) : String := o.getD ""

/-- JavaScript `String.prototype.trim`, over the character list (whitespace =
space, tab, carriage return, line feed — the characters occurring in the data
this client handles). -/
def jsTrim (s : String) : String :=
  String.mk (((s.data.dropWhile Char.isWhitespace).reverse.dropWhile
    Char.isWhitespace).reverse)

/-- JavaScript `String.prototype.toLowerCase`, over the character list
(ASCII case folding, which covers the email alphabet). -/
def jsToLower (s : String) : String :=
  String.mk (s.data.map Char.toLower)

/-- `String.prototype.split(" ")` (keeps empty segments, like JavaScript). -/
def jsSplitSpaceAux : List Char → List Char → List String
  | [], acc => [String.mk acc.reverse]
  | c :: rest, acc =>
      if c = ' ' then String.mk acc.reverse :: jsSplitSpaceAux rest []
      else jsSplitSpaceAux rest (c :: acc)

def jsSplitSpace (s : String) : List String := jsSplitSpaceAux s.data []

/-- `Array.prototype.join(" ")`. -/
def joinSpaceAux : List String → List Char
  | [] => []
  | [s] => s.data
  | s :: rest => s.data ++ ' ' :: joinSpaceAux rest

def joinSpace (l : List String) : String := String.mk (joinSpaceAux l)

/-- JavaScript truthiness of a string-or-null value (`null` and `""` are falsy). -/
def optTruthy (o : Option String) : Bool :=
  match o with
  | some s => s ≠ ""
  | none => false

/-- `(x || "").trim() || null` — trim, and collapse the empty string to null. -/
def strOrNull (o : Option String) : Option String :=
  let s := jsTrim (jsStr o)
  if s = "" then none else some s

/-- `(x || "").trim().toLowerCase() || null` — the email normalisation used for
the claimer's email in the soft guard and the claim block. -/
def normEmail (o : Option String) : Option String :=
  let e := jsToLower (jsTrim (jsStr o))
  if e = "" then none else some e

/-- UTF-8 bytes of a character, computed from its code point. -/
def utf8Bytes (c : Char) : List Nat :=
  let n := c.toNat
  if n < 128 then [n]
  else if n < 2048 then [192 + n / 64, 128 + n % 64]
  else if n < 65536 then [224 + n / 4096, 128 + (n / 64) % 64, 128 + n % 64]
  else [240 + n / 262144, 128 + (n / 4096) % 64, 128 + (n / 64) % 64, 128 + n % 64]

/-- Bytes that JavaScript `encodeURIComponent` leaves unescaped:
`A-Z a-z 0-9 - _ . ! ~ * ' ( )`. -/
def uriUnreservedByte (b : Nat) : Bool :=
  (65 ≤ b && b ≤ 90) || (97 ≤ b && b ≤ 122) || (48 ≤ b && b ≤ 57) ||
  (b == 45) || (b == 95) || (b == 46) || (b == 33) || (b == 126) ||
  (b == 42) || (b == 39) || (b == 40) || (b == 41)

/-- Uppercase hexadecimal digit, as produced by `encodeURIComponent`. -/
def hexDigitChar (n : Nat) : Char :=
  if n < 10 then Char.ofNat (48 + n) else Char.ofNat (55 + n)

/-- Model of JavaScript `encodeURIComponent`: percent-encode every UTF-8 byte
outside the unreserved set. -/
def encodeURIComponent (s : String) : String :=
  String.mk <| s.data.flatMap fun c =>
    (utf8Bytes c).flatMap fun b =>
      if uriUnreservedByte b then [Char.ofNat b]
      else ['%', hexDigitChar (b / 16), hexDigitChar (b % 16)]

/-- The memoised `invitePath`: `token && orgId ? "/invite/" + enc(token) +
"?org=" + enc(orgId) : ""`. -/
def invitePathOf (token : Option String) (orgId : String) : String :=
  match token with
  | some t =>
      if t ≠ "" ∧ orgId ≠ "" then
        "/invite/" ++ encodeURIComponent t ++ "?org=" ++ encodeURIComponent orgId
      else ""
  | none => ""

/-- The two resume-pointer localStorage keys. -/
def pendingInviteKey : String := "pendingInvitePath"

def afterOnboardingKey : String := "afterOnboardingNext"

/-- Firestore `serverTimestamp()` is a sentinel the client sends; `client n`
stands for any other timestamp value already present in a document. -/
inductive TimeVal
| serverTimestamp
| client (n : Nat)
deriving DecidableEq, Inhabited

/-- Authenticated Firebase user as observed by `onAuthStateChanged`. -/
structure User where
  uid : String
  email : Option String
  displayName : Option String
deriving DecidableEq

/-- Document at `orgs/{orgId}/inviteTokens/{token}`. -/
structure TokenDoc where
  inviteId : Option String
deriving DecidableEq

/-- Document at `orgs/{orgId}/invites/{inviteId}`. -/
structure InviteDoc where
  status : Option String := none
  role : Option String := none
  email : Option String := none
  email_lc : Option String := none
  phone : Option String := none
  createdBy : Option String := none
  claimedBy : Option String := none
  claimedEmail : Option String := none
  claimedEmail_lc : Option String := none
  claimedFirstName : Option String := none
  claimedLastName : Option String := none
  claimedAt : Option TimeVal := none
deriving DecidableEq

/-- The `users/{uid}.scope` value persisted by `setOrg`. -/
structure ScopeVal where
  mode : String
  orgId : Option String
  orgName : Option String
deriving DecidableEq

/-- Document at `users/{uid}` (the fields this core reads or writes). -/
structure ProfileDoc where
  firstName : Option String := none
  lastName : Option String := none
  email : Option String := none
  scope : Option ScopeVal := none
deriving DecidableEq

/-- Document at `orgs/{orgId}/members/{uid}`. -/
structure MemberDoc where
  userId : String
  email : Option String
  firstName : String
  lastName : String
  role : String
  addedAt : TimeVal
  fromInviteId : String
deriving DecidableEq, Inhabited

/-- Document at `users/{uid}/orgMemberships/{orgId}`.  The upsert in the source
supplies every one of these fields, so the `merge: true` write coincides with
overwriting them. -/
structure IndexDoc where
  orgId : String
  orgName : String
  role : String
  joinedAt : TimeVal
deriving DecidableEq, Inhabited

/-- Document at `orgs/{orgId}` (only the display name is read here). -/
structure OrgDoc where
  name : Option String
deriving DecidableEq

/-- The remote document store: each collection as a keyed partial map. -/
structure Fire where
  inviteTokens : String → String → Option TokenDoc
  invites : String → String → Option InviteDoc
  users : String → Option ProfileDoc
  members : String → String → Option MemberDoc
  orgMemberships : String → String → Option IndexDoc
  orgs : String → Option OrgDoc

/-- Point update of a singly-keyed map. -/
def upd1 {α : Type} (f : String → Option α) (k : String) (v : Option α) :
    String → Option α :=
  fun a => if a = k then v else f a

/-- Point update of a doubly-keyed map. -/
def upd2 {α : Type} (f : String → String → Option α) (k1 k2 : String)
    (v : Option α) : String → String → Option α :=
  fun a b => if a = k1 ∧ b = k2 then v else f a b

/-- The two resume-pointer keys of `localStorage`. -/
structure LocalStore where
  pendingInvitePath : Option String
  afterOnboardingNext : Option String
deriving DecidableEq

/-- Which remote operations fail in this run (each one the source either
guards with `try`/`catch` or lets abort the run). -/
structure Oracle where
  profileReadFails : Bool
  claimFails : Bool
  memberFails : Bool
  orgReadFails : Bool
  indexFails : Bool
  deleteFails : Bool
deriving DecidableEq

/-- Terminal failure reasons of a run. -/
inductive FailReason
| invalidLink
| tokenNotFound
| malformedToken
| inviteNotFound
| notPending
| emailMismatch
| claimError
| memberError
| indexError
deriving DecidableEq

/-- How a run ends. -/
inductive Outcome
| failed (r : FailReason)
| needSignIn
| detourOnboarding
| done (orgName : String)
deriving DecidableEq

/-- Navigation performed by the run. -/
inductive NavTarget
| onboarding
| home (toast : String)
deriving DecidableEq

/-- Operations performed during a run, in program order.  Write events carry
the document data that was written and denote writes that took effect. -/
inductive RunEv
| readToken (orgId tok : String)
| readInvite (orgId inviteId : String)
| readProfile (uid : String)
| readOrg (orgId : String)
| lsSet (key val : String)
| lsRemove (key : String)
| claimWrite (orgId inviteId : String) (d : InviteDoc)
| memberCreate (orgId uid : String) (d : MemberDoc)
| indexUpsert (uid orgId : String) (d : IndexDoc)
| inviteDelete (orgId inviteId : String)
| scopeWrite (uid : String) (s : ScopeVal)
deriving DecidableEq

/-- The four invite-protocol remote writes. -/
def isProtoWrite : RunEv → Bool
| .claimWrite _ _ _ => true
| .memberCreate _ _ _ => true
| .indexUpsert _ _ _ => true
| .inviteDelete _ _ => true
| _ => false

/-- Every event that is a network call (reads and remote writes). -/
def isRemoteCall : RunEv → Bool
| .lsSet _ _ => false
| .lsRemove _ => false
| _ => true

/-- Every event that writes to a remote store (the four protocol writes plus
the active-scope pointer update). -/
def isRemoteWrite (e : RunEv) : Bool :=
  isProtoWrite e || (match e with | .scopeWrite _ _ => true | _ => false)

/-- Result of one run of the controller. -/
structure RunResult where
  fire : Fire
  ls : LocalStore
  localScope : ScopeVal
  outcome : Outcome
  err : Option String
  trace : List RunEv
  nav : Option NavTarget

/-- `inv.status && inv.status !== "pending"` — the not-pending guard
(an absent or empty status falls through as pending). -/
def statusNotPending (inv : InviteDoc) : Bool :=
  optTruthy inv.status && decide (jsStr inv.status ≠ "pending")

/-- `inv.email_lc ?? (typeof inv.email === "string" ? inv.email.trim().toLowerCase() : null)`. -/
def inviteEmailLC (inv : InviteDoc) : Option String :=
  inv.email_lc.orElse fun _ => inv.email.map fun s => jsToLower (jsTrim s)

/-- The soft email guard: `inviteEmailLC && myEmail && inviteEmailLC !== myEmail`. -/
def emailMismatchB (inv : InviteDoc) (u : User) : Bool :=
  optTruthy (inviteEmailLC inv) && optTruthy (normEmail u.email) &&
    decide (inviteEmailLC inv ≠ normEmail u.email)

/-- First/last name resolution: the profile document first (skipped when its
read throws), then the provider-supplied display name split on spaces. -/
def resolveNames (oracle : Oracle) (fire : Fire) (u : User) :
    Option String × Option String :=
  let fromProfile : Option String × Option String :=
    if oracle.profileReadFails then (none, none)
    else
      match fire.users u.uid with
      | some p => (strOrNull p.firstName, strOrNull p.lastName)
      | none => (none, none)
  if fromProfile.1.isSome ∧ fromProfile.2.isSome then fromProfile
  else
    let parts := (jsSplitSpace (jsTrim (jsStr u.displayName))).filter fun s => s ≠ ""
    let rest := joinSpace (parts.drop 1)
    (fromProfile.1 <|> parts.head?,
     fromProfile.2 <|> (if rest = "" then none else some rest))

/-- The org display name used for the reverse-index entry and the toast:
best-effort read of `orgs/{orgId}.name`, defaulting to `"Clinic"`. -/
def orgNameOf (oracle : Oracle) (fire : Fire) (orgId : String) : String :=
  if oracle.orgReadFails then "Clinic"
  else
    match fire.orgs orgId with
    | some od => if jsStr od.name = "" then "Clinic" else jsStr od.name
    | none => "Clinic"

/-- The claim block written onto the invite record by `updateDoc` (the fields
not listed in the update, such as `email_lc`, are preserved). -/
def claimedInvite (inv : InviteDoc) (u : User) (fn ln : String) : InviteDoc :=
  { inv with
    status := some (inv.status.getD "pending")
    role := some (inv.role.getD "member")
    email := inv.email
    phone := inv.phone
    createdBy := inv.createdBy
    claimedBy := some u.uid
    claimedEmail := normEmail u.email
    claimedEmail_lc := normEmail u.email
    claimedFirstName := some fn
    claimedLastName := some ln
    claimedAt := some TimeVal.serverTimestamp }

/-- The member record created at `orgs/{orgId}/members/{uid}` (`merge: false`). -/
def newMemberDoc (u : User) (fn ln : String) (inv : InviteDoc) (iid : String) :
    MemberDoc :=
  { userId := u.uid
    email := u.email
    firstName := fn
    lastName := ln
    role := inv.role.getD "member"
    addedAt := TimeVal.serverTimestamp
    fromInviteId := iid }

/-- The reverse-index entry upserted at `users/{uid}/orgMemberships/{orgId}`. -/
def newIndexDoc (orgId orgName : String) (inv : InviteDoc) : IndexDoc :=
  { orgId := orgId
    orgName := orgName
    role := inv.role.getD "member"
    joinedAt := TimeVal.serverTimestamp }

/-- The success toast shown after navigation. -/
def successToast (orgName : String) : String :=
  "You’ve joined “" ++ orgName ++ "”."

/-- The localStorage state after the stash of step 2 (both resume-pointer
keys holding the invite path). -/
def stashedLS (token : Option String) (orgId : String) : LocalStore :=
  { pendingInvitePath := some (invitePathOf token orgId)
    afterOnboardingNext := some (invitePathOf token orgId) }

/-- The trace accumulated before the write pipeline starts (token read,
stash, invite read, profile read). -/
def preWriteTrace (token : Option String) (orgId iid uid : String) :
    List RunEv :=
  [RunEv.readToken orgId (jsStr token),
   RunEv.lsSet pendingInviteKey (invitePathOf token orgId),
   RunEv.lsSet afterOnboardingKey (invitePathOf token orgId),
   RunEv.readInvite orgId iid,
   RunEv.readProfile uid]

/-- FINALIZING (steps 8 of the controller, after the deletion attempt):
clear both resume-pointer keys, persist and set the active scope via
`setOrg` (`users/{uid}.scope`, creating the profile document when missing),
and navigate home with the success notice. -/
def finalizeRun (orgId : String) (u : User) (orgName : String) (fire4 : Fire)
    (trace5 : List RunEv) : RunResult :=
  let trace6 := trace5 ++ [RunEv.lsRemove pendingInviteKey,
                           RunEv.lsRemove afterOnboardingKey]
  let scopeV : ScopeVal :=
    { mode := "org", orgId := some orgId, orgName := some orgName }
  let prof := (fire4.users u.uid).getD {}
  let fire5 := { fire4 with
    users := upd1 fire4.users u.uid (some { prof with scope := some scopeV }) }
  { fire := fire5
    ls := { pendingInvitePath := none, afterOnboardingNext := none }
    localScope := scopeV
    outcome := .done orgName
    err := none
    trace := trace6 ++ [RunEv.scopeWrite u.uid scopeV]
    nav := some (.home (successToast orgName)) }

/-- Steps 4–8 of the controller: claim write, member creation, reverse-index
upsert, best-effort invite deletion, localStorage cleanup, `setOrg`, navigate. -/
def performWrites (orgId iid : String) (inv : InviteDoc) (u : User)
    (fn ln : String) (fire : Fire) (ls1 : LocalStore) (scope0 : ScopeVal)
    (oracle : Oracle) (trace : List RunEv) : RunResult :=
  if oracle.claimFails then
    { fire := fire, ls := ls1, localScope := scope0
      outcome := .failed .claimError
      err := some "Could not process invitation. Please try again."
      trace := trace, nav := none }
  else
    let inv1 := claimedInvite inv u fn ln
    let fire1 := { fire with invites := upd2 fire.invites orgId iid (some inv1) }
    let trace1 := trace ++ [RunEv.claimWrite orgId iid inv1]
    if oracle.memberFails then
      { fire := fire1, ls := ls1, localScope := scope0
        outcome := .failed .memberError
        err := some "Could not process invitation. Please try again."
        trace := trace1, nav := none }
    else
      let md := newMemberDoc u fn ln inv iid
      let fire2 := { fire1 with members := upd2 fire1.members orgId u.uid (some md) }
      let trace2 := trace1 ++ [RunEv.memberCreate orgId u.uid md]
      let orgName := orgNameOf oracle fire orgId
      let trace3 := trace2 ++ [RunEv.readOrg orgId]
      if oracle.indexFails then
        { fire := fire2, ls := ls1, localScope := scope0
          outcome := .failed .indexError
          err := some "Could not process invitation. Please try again."
          trace := trace3, nav := none }
      else
        let xd := newIndexDoc orgId orgName inv
        let fire3 := { fire2 with
          orgMemberships := upd2 fire2.orgMemberships u.uid orgId (some xd) }
        let trace4 := trace3 ++ [RunEv.indexUpsert u.uid orgId xd]
        if oracle.deleteFails then
          finalizeRun orgId u orgName fire3 trace4
        else
          finalizeRun orgId u orgName
            { fire3 with invites := upd2 fire3.invites orgId iid none }
            (trace4 ++ [RunEv.inviteDelete orgId iid])

/-- The `onAuthStateChanged` callback body, given an authenticated user and
the already-read token document. -/
def acceptInviteAuthed (orgId : String) (td : TokenDoc) (path : String)
    (u : User) (fire : Fire) (ls1 : LocalStore) (scope0 : ScopeVal)
    (oracle : Oracle) (trace : List RunEv) : RunResult :=
  if optTruthy td.inviteId then
    let iid := jsStr td.inviteId
    let trace1 := trace ++ [RunEv.readInvite orgId iid]
    match fire.invites orgId iid with
    | none =>
        { fire := fire, ls := ls1, localScope := scope0
          outcome := .failed .inviteNotFound
          err := some "Invite not found."
          trace := trace1, nav := none }
    | some inv =>
        if statusNotPending inv then
          { fire := fire, ls := ls1, localScope := scope0
            outcome := .failed .notPending
            err := some "This invitation is not pending anymore."
            trace := trace1, nav := none }
        else if emailMismatchB inv u then
          { fire := fire, ls := ls1, localScope := scope0
            outcome := .failed .emailMismatch
            err := some "This invitation is addressed to a different email."
            trace := trace1, nav := none }
        else
          let trace2 := trace1 ++ [RunEv.readProfile u.uid]
          let names := resolveNames oracle fire u
          match names.1, names.2 with
          | some fn, some ln =>
              performWrites orgId iid inv u fn ln fire ls1 scope0 oracle trace2
          | some _, none =>
              { fire := fire
                ls := { ls1 with afterOnboardingNext := some path }
                localScope := scope0
                outcome := .detourOnboarding
                err := none
                trace := trace2 ++ [RunEv.lsSet afterOnboardingKey path]
                nav := some .onboarding }
          | none, _ =>
              { fire := fire
                ls := { ls1 with afterOnboardingNext := some path }
                localScope := scope0
                outcome := .detourOnboarding
                err := none
                trace := trace2 ++ [RunEv.lsSet afterOnboardingKey path]
                nav := some .onboarding }
  else
    { fire := fire, ls := ls1, localScope := scope0
      outcome := .failed .malformedToken
      err := some "Malformed invite token."
      trace := trace, nav := none }

/-- One run of the accept-invite controller (`AcceptInvite.tsx` `run()` plus
its `onAuthStateChanged` continuation). -/
def acceptInviteRun (token : Option String) (orgId : String)
    (user : Option User) (fire : Fire) (_ls : LocalStore) (scope0 : ScopeVal)
    (oracle : Oracle) : RunResult :=
  let tok := jsStr token
  if tok = "" ∨ orgId = "" then
    { fire := fire
      ls := { pendingInvitePath := none, afterOnboardingNext := none }
      localScope := scope0
      outcome := .failed .invalidLink
      err := some "Invalid invite link."
      trace := [RunEv.lsRemove pendingInviteKey, RunEv.lsRemove afterOnboardingKey]
      nav := none }
  else
    let trace0 := [RunEv.readToken orgId tok]
    match fire.inviteTokens orgId tok with
    | none =>
        { fire := fire
          ls := { pendingInvitePath := none, afterOnboardingNext := none }
          localScope := scope0
          outcome := .failed .tokenNotFound
          err := some "Invite token not found or expired."
          trace := trace0 ++ [RunEv.lsRemove pendingInviteKey,
                              RunEv.lsRemove afterOnboardingKey]
          nav := none }
    | some td =>
        let path := invitePathOf token orgId
        let ls1 : LocalStore :=
          { pendingInvitePath := some path, afterOnboardingNext := some path }
        let trace1 := trace0 ++ [RunEv.lsSet pendingInviteKey path,
                                 RunEv.lsSet afterOnboardingKey path]
        match user with
        | none =>
            { fire := fire, ls := ls1, localScope := scope0
              outcome := .needSignIn
              err := some "Please sign in to accept the invitation."
              trace := trace1, nav := none }
        | some u =>
            acceptInviteAuthed orgId td path u fire ls1 scope0 oracle trace1

/-!  Concrete fixtures (the end-to-end scenarios of the specification),
used to instantiate the theorems below on explicit inputs. -/

/-- Scenario A caller: authenticated as the invited email, display name set. -/
def u0 : User :=
  { uid := "uid1", email := some "pat@example.com", displayName := some "Pat Lee" }

/-- Scenario B caller: authenticated under a different email. -/
def uOther : User :=
  { uid := "uid2", email := some "other@example.com", displayName := some "Ora Katz" }

/-- Scenario C caller: no resolvable name anywhere. -/
def uNoName : User :=
  { uid := "uid3", email := some "pat@example.com", displayName := none }

/-- Scenario A pending invite. -/
def invA : InviteDoc :=
  { status := some "pending", role := some "member", email := some "pat@example.com"
    createdBy := some "owner1" }

/-- Scenario D invite: already accepted. -/
def invAccepted : InviteDoc := { invA with status := some "accepted" }

/-- Scenario A profile document. -/
def profA : ProfileDoc := { firstName := some "Pat", lastName := some "Lee" }

/-- Scenario A store: token `tok123` of `orgA` resolves to invite `inv1`. -/
def fireA : Fire :=
  { inviteTokens := fun o t =>
      if o = "orgA" ∧ t = "tok123" then some { inviteId := some "inv1" } else none
    invites := fun o i => if o = "orgA" ∧ i = "inv1" then some invA else none
    users := fun uid => if uid = "uid1" then some profA else none
    members := fun _ _ => none
    orgMemberships := fun _ _ => none
    orgs := fun o => if o = "orgA" then some { name := some "Acme Clinic" } else none }

/-- A store whose token record carries no invite reference (malformed token). -/
def fireMal : Fire :=
  { fireA with inviteTokens := fun o t =>
      if o = "orgA" ∧ t = "tok123" then some { inviteId := none } else none }

/-- Scenario D store: the invite is already accepted. -/
def fireAccepted : Fire :=
  { fireA with invites := fun o i =>
      if o = "orgA" ∧ i = "inv1" then some invAccepted else none }

/-- A store with no profile documents (scenario C). -/
def fireNoProf : Fire := { fireA with users := fun _ => none }

/-- Empty local resume-pointer storage. -/
def ls0 : LocalStore := { pendingInvitePath := none, afterOnboardingNext := none }

/-- Initial scope context: nothing selected yet. -/
def scopeInit : ScopeVal := { mode := "org", orgId := none, orgName := none }

/-- The oracle of a run in which every remote operation succeeds. -/
def okOracle : Oracle :=
  { profileReadFails := false, claimFails := false, memberFails := false
    orgReadFails := false, indexFails := false, deleteFails := false }

/-- Oracle for the best-effort-failure run: the org-name read and the invite
deletion fail; everything else succeeds. -/
def bestEffortOracle : Oracle :=
  { okOracle with orgReadFails := true, deleteFails := true }

/-- Oracle in which only the best-effort invite deletion fails. -/
def delOracle : Oracle := { okOracle with deleteFails := true }

/-- First run of scenario A with the cleanup deletion failing (so that a
second run re-performs writes rather than stopping at `not_found`). -/
def runA1 : RunResult :=
  acceptInviteRun (some "tok123") "orgA" (some u0) fireA ls0 scopeInit delOracle

/-- Scenario A run a second time on the stores left by the first run. -/
def runA2 : RunResult :=
  acceptInviteRun (some "tok123") "orgA" (some u0) runA1.fire runA1.ls
    runA1.localScope delOracle

/-- The write-ordering contract of a run: the performed protocol writes form
a prefix of the canonical order claim → member → index → delete; a failing
step aborts every later protocol write; and performed writes are not rolled
back (each one is still visible in the final store — the claim write as long
as the deletion did not consume the record). -/
def WriteOrderSpec (orgId : String) (oracle : Oracle) (r : RunResult) : Prop :=
  (∃ iid uid d md xd,
    r.trace.filter isProtoWrite <+:
      [RunEv.claimWrite orgId iid d, RunEv.memberCreate orgId uid md,
       RunEv.indexUpsert uid orgId xd, RunEv.inviteDelete orgId iid]) ∧
  (oracle.claimFails = true → r.trace.filter isProtoWrite = []) ∧
  (oracle.memberFails = true →
    (∀ o u2 d2, RunEv.memberCreate o u2 d2 ∉ r.trace.filter isProtoWrite) ∧
    (∀ u2 o d2, RunEv.indexUpsert u2 o d2 ∉ r.trace.filter isProtoWrite) ∧
    (∀ o i2, RunEv.inviteDelete o i2 ∉ r.trace.filter isProtoWrite)) ∧
  (oracle.indexFails = true →
    (∀ u2 o d2, RunEv.indexUpsert u2 o d2 ∉ r.trace.filter isProtoWrite) ∧
    (∀ o i2, RunEv.inviteDelete o i2 ∉ r.trace.filter isProtoWrite)) ∧
  (oracle.deleteFails = true →
    ∀ o i2, RunEv.inviteDelete o i2 ∉ r.trace.filter isProtoWrite) ∧
  (∀ o u2 d2, RunEv.memberCreate o u2 d2 ∈ r.trace.filter isProtoWrite →
    r.fire.members o u2 = some d2) ∧
  (∀ u2 o d2, RunEv.indexUpsert u2 o d2 ∈ r.trace.filter isProtoWrite →
    r.fire.orgMemberships u2 o = some d2) ∧
  (∀ o i2 d2, RunEv.claimWrite o i2 d2 ∈ r.trace.filter isProtoWrite →
    (∀ o3 i3, RunEv.inviteDelete o3 i3 ∉ r.trace.filter isProtoWrite) →
    r.fire.invites o i2 = some d2)

/-! ## Helper lemmas -/

theorem upd2_same {α : Type} (f : String → String → Option α) (k1 k2 : String)
    (v : Option α) : upd2 f k1 k2 v k1 k2 = v := by
  simp [upd2]

theorem upd1_same {α : Type} (f : String → Option α) (k : String) (v : Option α) :
    upd1 f k v k = v := by
  simp [upd1]

theorem upd2_idem {α : Type} (f : String → String → Option α) (k1 k2 : String)
    (v : Option α) : upd2 (upd2 f k1 k2 v) k1 k2 v = upd2 f k1 k2 v := by
  funext a b
  by_cases h : a = k1 ∧ b = k2 <;> simp [upd2, h]

theorem normEmail_none : normEmail none = none := by decide

theorem optTruthy_normEmail (o : Option String) :
    optTruthy (normEmail o) = (normEmail o).isSome := by
  simp only [normEmail]
  split
  · simp [optTruthy]
  · next h => simp [optTruthy, h]

/-- Under the issuer invariant that `email_lc`, when present, is the
case-folded copy of the target email, the effective comparison value of the
soft guard is the normalised target email. -/
theorem inviteEmailLC_eq (inv : InviteDoc)
    (hlc : inv.email_lc = none ∨
      inv.email_lc = inv.email.map fun s => jsToLower (jsTrim s)) :
    inviteEmailLC inv = inv.email.map fun s => jsToLower (jsTrim s) := by
  rcases hlc with h | h
  · simp [inviteEmailLC, h]
  · cases he : inv.email <;> simp [inviteEmailLC, h, he]

/-- The soft email guard fires exactly when both normalised emails are
present and differ. -/
theorem emailMismatchB_iff (inv : InviteDoc) (u : User)
    (hlc : inv.email_lc = none ∨
      inv.email_lc = inv.email.map fun s => jsToLower (jsTrim s)) :
    emailMismatchB inv u = true ↔
      ((normEmail inv.email).isSome = true ∧ (normEmail u.email).isSome = true ∧
        normEmail inv.email ≠ normEmail u.email) := by
  unfold emailMismatchB
  rw [inviteEmailLC_eq inv hlc]
  cases he : inv.email with
  | none => simp [optTruthy, normEmail_none]
  | some s =>
    by_cases hl : jsToLower (jsTrim s) = ""
    · simp [optTruthy, hl, normEmail, jsStr]
    · by_cases hm : jsToLower (jsTrim (u.email.getD "")) = ""
      · simp [optTruthy, hl, hm, normEmail, jsStr]
      · simp [optTruthy, hl, hm, normEmail, jsStr]

/-- The write pipeline ends in a write error or success, never in one of the
pre-write failures. -/
theorem performWrites_outcome (orgId iid : String) (inv : InviteDoc) (u : User)
    (fn ln : String) (fire : Fire) (ls1 : LocalStore) (sc : ScopeVal)
    (oracle : Oracle) (trace : List RunEv) :
    (performWrites orgId iid inv u fn ln fire ls1 sc oracle trace).outcome
        = .failed .claimError ∨
    (performWrites orgId iid inv u fn ln fire ls1 sc oracle trace).outcome
        = .failed .memberError ∨
    (performWrites orgId iid inv u fn ln fire ls1 sc oracle trace).outcome
        = .failed .indexError ∨
    ∃ n, (performWrites orgId iid inv u fn ln fire ls1 sc oracle trace).outcome
        = .done n := by
  simp only [performWrites, finalizeRun]
  repeat' split
  all_goals simp

/-- The write pipeline never reports the pre-write failure `email_mismatch`. -/
theorem performWrites_ne_mismatch (orgId iid : String) (inv : InviteDoc)
    (u : User) (fn ln : String) (fire : Fire) (ls1 : LocalStore) (sc : ScopeVal)
    (oracle : Oracle) (trace : List RunEv) :
    (performWrites orgId iid inv u fn ln fire ls1 sc oracle trace).outcome
      ≠ .failed .emailMismatch := by
  simp only [performWrites, finalizeRun]
  repeat' split
  all_goals simp

/-- A run with no performed protocol writes satisfies the write-ordering
contract vacuously. -/
theorem writeOrder_of_empty (orgId : String) (oracle : Oracle) (r : RunResult)
    (h : r.trace.filter isProtoWrite = []) : WriteOrderSpec orgId oracle r := by
  refine ⟨⟨"", "", {}, default, default, ?_⟩, ?_, ?_, ?_, ?_, ?_, ?_, ?_⟩ <;>
    simp [WriteOrderSpec, h, List.nil_prefix]

/-- The write pipeline satisfies the write-ordering contract whenever the
trace accumulated before it contains no protocol writes. -/
theorem writeOrder_performWrites (orgId iid : String) (inv : InviteDoc)
    (u : User) (fn ln : String) (fire : Fire) (ls1 : LocalStore)
    (sc : ScopeVal) (oracle : Oracle) (trace : List RunEv)
    (htr : trace.filter isProtoWrite = []) :
    WriteOrderSpec orgId oracle
      (performWrites orgId iid inv u fn ln fire ls1 sc oracle trace) := by
  by_cases hcl : oracle.claimFails = true
  · exact writeOrder_of_empty _ _ _ (by simp [performWrites, hcl, htr])
  · by_cases hme : oracle.memberFails = true
    · refine ⟨⟨iid, u.uid, claimedInvite inv u fn ln, default, default, ?_⟩,
        ?_, ?_, ?_, ?_, ?_, ?_, ?_⟩ <;>
      simp +contextual [performWrites, hcl, hme, htr, isProtoWrite,
        List.filter_append, List.cons_prefix_cons, List.nil_prefix, upd2_same]
    · by_cases hix : oracle.indexFails = true
      · refine ⟨⟨iid, u.uid, claimedInvite inv u fn ln,
          newMemberDoc u fn ln inv iid, default, ?_⟩,
          ?_, ?_, ?_, ?_, ?_, ?_, ?_⟩ <;>
        simp +contextual [performWrites, hcl, hme, hix, htr, isProtoWrite,
          List.filter_append, List.cons_prefix_cons, List.nil_prefix, upd2_same]
      · by_cases hde : oracle.deleteFails = true
        · refine ⟨⟨iid, u.uid, claimedInvite inv u fn ln,
            newMemberDoc u fn ln inv iid,
            newIndexDoc orgId (orgNameOf oracle fire orgId) inv, ?_⟩,
            ?_, ?_, ?_, ?_, ?_, ?_, ?_⟩ <;>
          simp +contextual [performWrites, finalizeRun, hcl, hme, hix, hde, htr,
            isProtoWrite, List.filter_append, List.cons_prefix_cons,
            List.nil_prefix, upd2_same]
        · refine ⟨⟨iid, u.uid, claimedInvite inv u fn ln,
            newMemberDoc u fn ln inv iid,
            newIndexDoc orgId (orgNameOf oracle fire orgId) inv, ?_⟩,
            ?_, ?_, ?_, ?_, ?_, ?_, ?_⟩ <;>
          simp +contextual [performWrites, finalizeRun, hcl, hme, hix, hde, htr,
            isProtoWrite, List.filter_append, List.cons_prefix_cons,
            List.nil_prefix, upd2_same]

theorem upd2_overwrite {α : Type} (f : String → String → Option α)
    (k1 k2 : String) (v w : Option α) :
    upd2 (upd2 f k1 k2 v) k1 k2 w = upd2 f k1 k2 w := by
  funext a b
  by_cases h : a = k1 ∧ b = k2 <;> simp [upd2, h]

/-- The claim write preserves "not pending ⇒ fail" transparency: a pending
(or absent, or empty) status stays pending-like after the claim write. -/
theorem statusNotPending_claimedInvite (inv : InviteDoc) (u : User)
    (fn ln : String) (h : statusNotPending inv = false) :
    statusNotPending (claimedInvite inv u fn ln) = false := by
  cases hs : inv.status with
  | none => simp [statusNotPending, claimedInvite, hs, optTruthy, jsStr]
  | some s =>
    by_cases he : s = ""
    · simp [statusNotPending, claimedInvite, hs, he, optTruthy, jsStr]
    · have hp : s = "pending" := by
        simp [statusNotPending, hs, optTruthy, jsStr, he] at h
        exact h
      simp [statusNotPending, claimedInvite, hs, hp, optTruthy, jsStr]

/-- The claim write leaves the target-email fields untouched, so the soft
guard evaluates identically on the claimed record. -/
theorem emailMismatchB_claimedInvite (inv : InviteDoc) (u u2 : User)
    (fn ln : String) :
    emailMismatchB (claimedInvite inv u fn ln) u2 = emailMismatchB inv u2 := rfl

/-- Name resolution only reads the profile name fields, which the scope write
of FINALIZING preserves (including when it creates the profile document). -/
theorem resolveNames_eq_of_scope (oracle : Oracle) (fire f2 : Fire) (u : User)
    (sv : Option ScopeVal)
    (hus : f2.users u.uid =
      some { ((fire.users u.uid).getD {}) with scope := sv }) :
    resolveNames oracle f2 u = resolveNames oracle fire u := by
  unfold resolveNames
  rw [hus]
  cases hp : fire.users u.uid with
  | some p => simp [hp]
  | none =>
      have hnone : strOrNull none = none := by decide
      simp [hp, hnone]

/-- The org display name only depends on the `orgs` collection. -/
theorem orgNameOf_congr (oracle : Oracle) (f2 fire : Fire) (orgId : String)
    (h : f2.orgs = fire.orgs) :
    orgNameOf oracle f2 orgId = orgNameOf oracle fire orgId := by
  unfold orgNameOf
  rw [h]

/-- A run that ends `done n` went down the full successful pipeline: it
exposes every branch condition of the run and rewrites the run as its write
pipeline. -/
theorem run_done_inv (token : Option String) (orgId : String)
    (user : Option User) (fire : Fire) (ls : LocalStore) (sc : ScopeVal)
    (oracle : Oracle) (n : String)
    (h : (acceptInviteRun token orgId user fire ls sc oracle).outcome = .done n) :
    ∃ u td inv fn ln,
      user = some u ∧
      (¬(jsStr token = "" ∨ orgId = "")) ∧
      fire.inviteTokens orgId (jsStr token) = some td ∧
      optTruthy td.inviteId = true ∧
      fire.invites orgId (jsStr td.inviteId) = some inv ∧
      statusNotPending inv = false ∧
      emailMismatchB inv u = false ∧
      (resolveNames oracle fire u).1 = some fn ∧
      (resolveNames oracle fire u).2 = some ln ∧
      oracle.claimFails = false ∧ oracle.memberFails = false ∧
      oracle.indexFails = false ∧
      n = orgNameOf oracle fire orgId ∧
      acceptInviteRun token orgId user fire ls sc oracle =
        performWrites orgId (jsStr td.inviteId) inv u fn ln fire
          (stashedLS token orgId) sc oracle
          (preWriteTrace token orgId (jsStr td.inviteId) u.uid) := by
  simp only [acceptInviteRun, acceptInviteAuthed] at h
  repeat' split at h
  all_goals try (simp at h)
  all_goals
    rename_i hlink xtd td htd userOld u hiid xinv inv hinv hstT hmmT xfn xln
      fn ln hn1 hn2
  all_goals
    simp only [performWrites, finalizeRun] at h
  all_goals repeat' split at h
  all_goals try (simp at h)
  all_goals rename_i hcl hme hix hde
  all_goals
    refine ⟨u, td, inv, fn, ln, rfl, hlink, htd, hiid, hinv,
      (by simpa using hstT), (by simpa using hmmT), hn1, hn2,
      (by simpa using hcl), (by simpa using hme), (by simpa using hix),
      h.symm, ?_⟩
  all_goals
    simp [acceptInviteRun, acceptInviteAuthed, hlink, htd, hiid, hinv,
      hstT, hmmT, hn1, hn2, stashedLS, preWriteTrace]

/-- Final stores of a successful write pipeline, as point updates of the
stores it started from. -/
theorem performWrites_fire_spec (orgId iid : String) (inv : InviteDoc)
    (u : User) (fn ln : String) (fire : Fire) (ls1 : LocalStore)
    (sc : ScopeVal) (oracle : Oracle) (trace : List RunEv)
    (hcl : oracle.claimFails = false) (hme : oracle.memberFails = false)
    (hix : oracle.indexFails = false) :
    (performWrites orgId iid inv u fn ln fire ls1 sc oracle trace).fire.members
      = upd2 fire.members orgId u.uid (some (newMemberDoc u fn ln inv iid)) ∧
    (performWrites orgId iid inv u fn ln fire ls1 sc oracle
        trace).fire.orgMemberships
      = upd2 fire.orgMemberships u.uid orgId
          (some (newIndexDoc orgId (orgNameOf oracle fire orgId) inv)) ∧
    (performWrites orgId iid inv u fn ln fire ls1 sc oracle
        trace).fire.inviteTokens = fire.inviteTokens ∧
    (performWrites orgId iid inv u fn ln fire ls1 sc oracle trace).fire.orgs
      = fire.orgs ∧
    (performWrites orgId iid inv u fn ln fire ls1 sc oracle trace).fire.users
        u.uid
      = some { ((fire.users u.uid).getD {}) with
          scope := some { mode := "org", orgId := some orgId,
                          orgName := some (orgNameOf oracle fire orgId) } } ∧
    (oracle.deleteFails = true →
      (performWrites orgId iid inv u fn ln fire ls1 sc oracle
        trace).fire.invites
        = upd2 fire.invites orgId iid (some (claimedInvite inv u fn ln))) ∧
    (oracle.deleteFails = false →
      (performWrites orgId iid inv u fn ln fire ls1 sc oracle
        trace).fire.invites = upd2 fire.invites orgId iid none) := by
  by_cases hde : oracle.deleteFails = true <;>
    refine ⟨?_, ?_, ?_, ?_, ?_, ?_, ?_⟩ <;>
      simp [performWrites, finalizeRun, hcl, hme, hix, hde, upd1_same,
        upd2_overwrite]

/-! ## Claims -/

/-- C5: with a missing token or org parameter the run fails with
`invalid_link` before any network call and clears both resume-pointer keys;
with a token that has no matching `InviteToken` record it fails with
`not_found` and clears both keys; in both cases no resume pointer is ever
persisted (no `lsSet` event occurs), because the stash happens only after the
token is validated to exist. -/
theorem accept_invite_early_validation (token : Option String) (orgId : String)
    (user : Option User) (fire : Fire) (ls : LocalStore) (sc : ScopeVal)
    (oracle : Oracle) (r : RunResult)
    (hr : r = acceptInviteRun token orgId user fire ls sc oracle) :
    ((jsStr token = "" ∨ orgId = "") →
      r.outcome = .failed .invalidLink ∧
      r.trace.filter isRemoteCall = [] ∧
      r.ls.pendingInvitePath = none ∧ r.ls.afterOnboardingNext = none ∧
      (∀ k v, RunEv.lsSet k v ∉ r.trace)) ∧
    (¬(jsStr token = "" ∨ orgId = "") →
      fire.inviteTokens orgId (jsStr token) = none →
      r.outcome = .failed .tokenNotFound ∧
      r.ls.pendingInvitePath = none ∧ r.ls.afterOnboardingNext = none ∧
      (∀ k v, RunEv.lsSet k v ∉ r.trace)) := by
  subst hr
  constructor
  · intro h
    simp [acceptInviteRun, if_pos h, isRemoteCall]
  · intro h1 h2
    simp [acceptInviteRun, if_neg h1, h2, isRemoteCall]

/-- C5 witness: concrete instantiations of both branches. -/
theorem accept_invite_early_validation_witness :
    (acceptInviteRun none "orgA" (some u0) fireA ls0 scopeInit okOracle).outcome
      = .failed .invalidLink ∧
    (acceptInviteRun (some "zzz") "orgA" (some u0) fireA ls0 scopeInit
      okOracle).outcome = .failed .tokenNotFound := by
  refine ⟨((accept_invite_early_validation none "orgA" (some u0) fireA ls0
      scopeInit okOracle _ rfl).1 (Or.inl rfl)).1, ?_⟩
  exact ((accept_invite_early_validation (some "zzz") "orgA" (some u0) fireA ls0
      scopeInit okOracle _ rfl).2 (by decide) (by decide)).1

/-- C6: for an invite whose status is `accepted`, `revoked` or `expired` the
run ends in the terminal failure `not_pending`, performs no remote writes
(the store is unchanged), and leaves both resume-pointer keys in place (still
holding the invite path stashed earlier in the run). -/
theorem accept_invite_not_pending_no_writes (token : Option String)
    (orgId : String) (u : User) (fire : Fire) (ls : LocalStore) (sc : ScopeVal)
    (oracle : Oracle) (td : TokenDoc) (inv : InviteDoc)
    (htok : jsStr token ≠ "") (horg : orgId ≠ "")
    (htd : fire.inviteTokens orgId (jsStr token) = some td)
    (hiid : optTruthy td.inviteId = true)
    (hinv : fire.invites orgId (jsStr td.inviteId) = some inv)
    (hst : inv.status = some "accepted" ∨ inv.status = some "revoked" ∨
      inv.status = some "expired")
    (r : RunResult)
    (hr : r = acceptInviteRun token orgId (some u) fire ls sc oracle) :
    r.outcome = .failed .notPending ∧ r.fire = fire ∧
    r.trace.filter isRemoteWrite = [] ∧
    r.ls.pendingInvitePath = some (invitePathOf token orgId) ∧
    r.ls.afterOnboardingNext = some (invitePathOf token orgId) := by
  subst hr
  have hst2 : statusNotPending inv = true := by
    rcases hst with h | h | h <;> simp [statusNotPending, h, optTruthy, jsStr]
  simp [acceptInviteRun, htok, horg, htd, acceptInviteAuthed, hiid, hinv, hst2,
    isRemoteWrite, isProtoWrite]

/-- C6 witness: scenario D (invite already accepted). -/
theorem accept_invite_not_pending_no_writes_witness :
    (acceptInviteRun (some "tok123") "orgA" (some u0) fireAccepted ls0 scopeInit
      okOracle).outcome = .failed .notPending := by
  exact (accept_invite_not_pending_no_writes (some "tok123") "orgA" u0
    fireAccepted ls0 scopeInit okOracle { inviteId := some "inv1" } invAccepted
    (by decide) (by decide) (by decide) (by decide) (by decide)
    (Or.inl (by decide)) _ rfl).1

/-- C2 (amended): `invalid_link` and the missing-`InviteToken` `not_found` are
terminal and clear both resume-pointer keys; `malformed_token` and the
missing-`InviteRecord` `not_found` are terminal (no remote writes, no
navigation, a user-facing error) but leave both resume-pointer keys set to
the stashed invite path rather than clearing them. -/
theorem accept_invite_link_error_pointers (token : Option String)
    (orgId : String) (user : Option User) (fire : Fire) (ls : LocalStore)
    (sc : ScopeVal) (oracle : Oracle) (r : RunResult)
    (hr : r = acceptInviteRun token orgId user fire ls sc oracle) :
    ((r.outcome = .failed .invalidLink ∨ r.outcome = .failed .tokenNotFound) →
      r.ls.pendingInvitePath = none ∧ r.ls.afterOnboardingNext = none) ∧
    ((r.outcome = .failed .malformedToken ∨ r.outcome = .failed .inviteNotFound) →
      r.ls.pendingInvitePath = some (invitePathOf token orgId) ∧
      r.ls.afterOnboardingNext = some (invitePathOf token orgId)) ∧
    ((r.outcome = .failed .invalidLink ∨ r.outcome = .failed .tokenNotFound ∨
      r.outcome = .failed .malformedToken ∨ r.outcome = .failed .inviteNotFound) →
      r.trace.filter isRemoteWrite = [] ∧ r.nav = none ∧ r.err ≠ none) := by
  subst hr
  simp only [acceptInviteRun, acceptInviteAuthed, performWrites, finalizeRun]
  repeat' split
  all_goals simp [isRemoteWrite, isProtoWrite]

/-- C2 counterexample: on a malformed token (token record with no invite
reference) the run ends `FAILED:malformed_token`, yet both resume-pointer
keys are left set, not cleared as the claim states. -/
theorem accept_invite_link_errors_clear_cex :
    (acceptInviteRun (some "tok123") "orgA" (some u0) fireMal ls0 scopeInit
      okOracle).outcome = .failed .malformedToken ∧
    (acceptInviteRun (some "tok123") "orgA" (some u0) fireMal ls0 scopeInit
      okOracle).ls.pendingInvitePath ≠ none ∧
    (acceptInviteRun (some "tok123") "orgA" (some u0) fireMal ls0 scopeInit
      okOracle).ls.afterOnboardingNext ≠ none := by
  decide

/-- C2 witness: the amended clearing behaviour at the malformed-token input
(keys left holding the stashed invite path). -/
theorem accept_invite_link_error_pointers_witness :
    (acceptInviteRun (some "tok123") "orgA" (some u0) fireMal ls0 scopeInit
      okOracle).ls.pendingInvitePath
        = some (invitePathOf (some "tok123") "orgA") ∧
    (acceptInviteRun (some "tok123") "orgA" (some u0) fireMal ls0 scopeInit
      okOracle).ls.afterOnboardingNext
        = some (invitePathOf (some "tok123") "orgA") := by
  exact (accept_invite_link_error_pointers (some "tok123") "orgA" (some u0)
    fireMal ls0 scopeInit okOracle _ rfl).2.1 (Or.inl (by decide))

/-- C7: the run reaches `FAILED:email_mismatch` exactly when the invite
carries a non-empty target email, the caller has a non-empty email, and the
two differ case-insensitively (after trimming); absence or emptiness of
either side is never a mismatch; and on a mismatch the run performs no
remote writes.  `email_lc`, when stored, is the issuer's case-folded copy of
the target email. -/
theorem accept_invite_email_mismatch_iff (token : Option String)
    (orgId : String) (u : User) (fire : Fire) (ls : LocalStore) (sc : ScopeVal)
    (oracle : Oracle) (td : TokenDoc) (inv : InviteDoc)
    (htok : jsStr token ≠ "") (horg : orgId ≠ "")
    (htd : fire.inviteTokens orgId (jsStr token) = some td)
    (hiid : optTruthy td.inviteId = true)
    (hinv : fire.invites orgId (jsStr td.inviteId) = some inv)
    (hst : statusNotPending inv = false)
    (hlc : inv.email_lc = none ∨
      inv.email_lc = inv.email.map fun s => jsToLower (jsTrim s))
    (r : RunResult)
    (hr : r = acceptInviteRun token orgId (some u) fire ls sc oracle) :
    (r.outcome = .failed .emailMismatch ↔
      ((normEmail inv.email).isSome = true ∧ (normEmail u.email).isSome = true ∧
        normEmail inv.email ≠ normEmail u.email)) ∧
    (r.outcome = .failed .emailMismatch →
      r.fire = fire ∧ r.trace.filter isRemoteWrite = []) := by
  subst hr
  by_cases hm : emailMismatchB inv u = true
  · refine ⟨⟨fun _ => (emailMismatchB_iff inv u hlc).mp hm, fun _ => ?_⟩, fun _ => ?_⟩
    · simp [acceptInviteRun, htok, horg, htd, acceptInviteAuthed, hiid, hinv,
        hst, hm]
    · simp [acceptInviteRun, htok, horg, htd, acceptInviteAuthed, hiid, hinv,
        hst, hm, isRemoteWrite, isProtoWrite]
  · have hout : (acceptInviteRun token orgId (some u) fire ls sc
        oracle).outcome ≠ .failed .emailMismatch := by
      simp only [acceptInviteRun, acceptInviteAuthed]
      repeat' split
      all_goals first
        | apply performWrites_ne_mismatch
        | simp_all [isRemoteWrite, isProtoWrite]
    exact ⟨⟨fun h => absurd h hout,
      fun hcond => absurd ((emailMismatchB_iff inv u hlc).mpr hcond) hm⟩,
      fun h => absurd h hout⟩

/-- C7 witness: scenario B (authenticated as a different email). -/
theorem accept_invite_email_mismatch_iff_witness :
    (acceptInviteRun (some "tok123") "orgA" (some uOther) fireA ls0 scopeInit
      okOracle).outcome = .failed .emailMismatch := by
  exact ((accept_invite_email_mismatch_iff (some "tok123") "orgA" uOther fireA
    ls0 scopeInit okOracle { inviteId := some "inv1" } invA (by decide)
    (by decide) (by decide) (by decide) (by decide) (by decide)
    (Or.inl (by decide)) _ rfl).1).mpr (by decide)

/-- C8: for an authenticated caller whose first or last name cannot be
resolved from the profile document or the provider display name, the run
persists the after-onboarding resume key equal to the original invite link,
navigates to onboarding, and halts without the claim write or any later
remote write (the store is untouched). -/
theorem accept_invite_onboarding_detour (token : Option String)
    (orgId : String) (u : User) (fire : Fire) (ls : LocalStore) (sc : ScopeVal)
    (oracle : Oracle) (td : TokenDoc) (inv : InviteDoc)
    (htok : jsStr token ≠ "") (horg : orgId ≠ "")
    (htd : fire.inviteTokens orgId (jsStr token) = some td)
    (hiid : optTruthy td.inviteId = true)
    (hinv : fire.invites orgId (jsStr td.inviteId) = some inv)
    (hst : statusNotPending inv = false)
    (hmm : emailMismatchB inv u = false)
    (hnm : (resolveNames oracle fire u).1 = none ∨
      (resolveNames oracle fire u).2 = none)
    (r : RunResult)
    (hr : r = acceptInviteRun token orgId (some u) fire ls sc oracle) :
    r.outcome = .detourOnboarding ∧
    r.ls.afterOnboardingNext = some (invitePathOf token orgId) ∧
    r.nav = some .onboarding ∧
    r.fire = fire ∧ r.trace.filter isRemoteWrite = [] := by
  subst hr
  rcases hnm with h | h
  · simp [acceptInviteRun, htok, horg, htd, acceptInviteAuthed, hiid, hinv,
      hst, hmm, h, isRemoteWrite, isProtoWrite]
  · cases h1 : (resolveNames oracle fire u).1 <;>
      simp [acceptInviteRun, htok, horg, htd, acceptInviteAuthed, hiid, hinv,
        hst, hmm, h, h1, isRemoteWrite, isProtoWrite]

/-- C8 witness: scenario C (no profile document, no display name). -/
theorem accept_invite_onboarding_detour_witness :
    (acceptInviteRun (some "tok123") "orgA" (some uNoName) fireNoProf ls0
      scopeInit okOracle).outcome = .detourOnboarding ∧
    (acceptInviteRun (some "tok123") "orgA" (some uNoName) fireNoProf ls0
      scopeInit okOracle).ls.afterOnboardingNext
        = some (invitePathOf (some "tok123") "orgA") := by
  have h := accept_invite_onboarding_detour (some "tok123") "orgA" uNoName
    fireNoProf ls0 scopeInit okOracle { inviteId := some "inv1" } invA
    (by decide) (by decide) (by decide) (by decide) (by decide) (by decide)
    (by decide) (Or.inl (by decide)) _ rfl
  exact ⟨h.1, h.2.1⟩

/-- C10: every claim write stores the claimer's email case-folded to
lowercase (after trimming), so `claimedEmail` and `claimedEmail_lc` are
always written equal, both holding the normalised authenticated email. -/
theorem accept_invite_claim_email_folded (token : Option String)
    (orgId : String) (u : User) (fire : Fire) (ls : LocalStore) (sc : ScopeVal)
    (oracle : Oracle) (o i : String) (d : InviteDoc)
    (hd : RunEv.claimWrite o i d ∈
      (acceptInviteRun token orgId (some u) fire ls sc oracle).trace) :
    d.claimedEmail = d.claimedEmail_lc ∧ d.claimedEmail = normEmail u.email ∧
    d.claimedEmail_lc = normEmail u.email := by
  simp only [acceptInviteRun, acceptInviteAuthed, performWrites, finalizeRun] at hd
  repeat' split at hd
  all_goals simp_all [claimedInvite]

/-- C10 witness: the claim write of scenario A. -/
theorem accept_invite_claim_email_folded_witness :
    RunEv.claimWrite "orgA" "inv1" (claimedInvite invA u0 "Pat" "Lee") ∈
      (acceptInviteRun (some "tok123") "orgA" (some u0) fireA ls0 scopeInit
        okOracle).trace ∧
    (claimedInvite invA u0 "Pat" "Lee").claimedEmail
      = (claimedInvite invA u0 "Pat" "Lee").claimedEmail_lc := by
  refine ⟨by decide, ?_⟩
  exact (accept_invite_claim_email_folded (some "tok123") "orgA" u0 fireA ls0
    scopeInit okOracle "orgA" "inv1" (claimedInvite invA u0 "Pat" "Lee")
    (by decide)).1

/-- C9: best-effort failures do not abort the run: with the org-name lookup
failing the reverse-index entry is written with the default name `"Clinic"`,
a failing invite deletion is swallowed (the claimed invite record remains),
and the run still completes — both resume-pointer keys cleared, local scope
and the persisted scope pointer set to the new org, and navigation to home
with the success notice. -/
theorem accept_invite_best_effort (token : Option String) (orgId : String)
    (u : User) (fire : Fire) (ls : LocalStore) (sc : ScopeVal)
    (oracle : Oracle) (td : TokenDoc) (inv : InviteDoc) (fn ln : String)
    (htok : jsStr token ≠ "") (horg : orgId ≠ "")
    (htd : fire.inviteTokens orgId (jsStr token) = some td)
    (hiid : optTruthy td.inviteId = true)
    (hinv : fire.invites orgId (jsStr td.inviteId) = some inv)
    (hst : statusNotPending inv = false)
    (hmm : emailMismatchB inv u = false)
    (hn1 : (resolveNames oracle fire u).1 = some fn)
    (hn2 : (resolveNames oracle fire u).2 = some ln)
    (hcl : oracle.claimFails = false) (hme : oracle.memberFails = false)
    (hix : oracle.indexFails = false)
    (hor : oracle.orgReadFails = true) (hde : oracle.deleteFails = true)
    (r : RunResult)
    (hr : r = acceptInviteRun token orgId (some u) fire ls sc oracle) :
    r.outcome = .done "Clinic" ∧
    r.fire.orgMemberships u.uid orgId = some (newIndexDoc orgId "Clinic" inv) ∧
    r.fire.invites orgId (jsStr td.inviteId)
      = some (claimedInvite inv u fn ln) ∧
    r.ls.pendingInvitePath = none ∧ r.ls.afterOnboardingNext = none ∧
    r.localScope = { mode := "org", orgId := some orgId, orgName := some "Clinic" } ∧
    (∃ p, r.fire.users u.uid = some p ∧
      p.scope = some { mode := "org", orgId := some orgId, orgName := some "Clinic" }) ∧
    r.nav = some (.home (successToast "Clinic")) := by
  subst hr
  simp [acceptInviteRun, htok, horg, htd, acceptInviteAuthed, hiid, hinv, hst,
    hmm, hn1, hn2, performWrites, finalizeRun, hcl, hme, hix, hor, hde, orgNameOf,
    upd2_same, upd1_same]

/-- C9 witness: scenario A with the org-name read and the deletion failing. -/
theorem accept_invite_best_effort_witness :
    (acceptInviteRun (some "tok123") "orgA" (some u0) fireA ls0 scopeInit
      bestEffortOracle).outcome = .done "Clinic" := by
  exact (accept_invite_best_effort (some "tok123") "orgA" u0 fireA ls0
    scopeInit bestEffortOracle { inviteId := some "inv1" } invA "Pat" "Lee"
    (by decide) (by decide) (by decide) (by decide) (by decide) (by decide)
    (by decide) (by decide) (by decide) (by decide) (by decide) (by decide)
    (by decide) (by decide) _ rfl).1

/-- C1: in every run the performed remote protocol writes occur in the
strict order claim write → member creation → reverse-index upsert → invite
deletion (they always form a prefix of that sequence); if any step from the
claim write onward fails, none of the later writes in this order are
performed; and earlier writes are not rolled back (each performed write is
still visible in the final store, the claim write as long as the deletion
did not consume the record).  The FINALIZING scope-pointer update is a
separate subsystem write occurring after all four. -/
theorem accept_invite_write_order (token : Option String) (orgId : String)
    (user : Option User) (fire : Fire) (ls : LocalStore) (sc : ScopeVal)
    (oracle : Oracle) (r : RunResult)
    (hr : r = acceptInviteRun token orgId user fire ls sc oracle) :
    WriteOrderSpec orgId oracle r := by
  subst hr
  simp only [acceptInviteRun, acceptInviteAuthed]
  repeat' split
  all_goals first
    | (apply writeOrder_performWrites
       simp [isProtoWrite])
    | (apply writeOrder_of_empty
       simp [isProtoWrite])

/-- C1 witness: scenario A satisfies the write-ordering contract. -/
theorem accept_invite_write_order_witness :
    WriteOrderSpec "orgA" okOracle
      (acceptInviteRun (some "tok123") "orgA" (some u0) fireA ls0 scopeInit
        okOracle) :=
  accept_invite_write_order (some "tok123") "orgA" (some u0) fireA ls0
    scopeInit okOracle _ rfl

/-- C3: in every successful run, the Member record stored for (org, user)
and the ReverseIndex entry stored for (user, org) carry the same role, and
that role is the invite's role field defaulted to `"member"` when absent. -/
theorem accept_invite_role_consistent (token : Option String) (orgId : String)
    (user : Option User) (fire : Fire) (ls : LocalStore) (sc : ScopeVal)
    (oracle : Oracle) (n : String)
    (h : (acceptInviteRun token orgId user fire ls sc oracle).outcome = .done n) :
    ∃ u td inv md xd,
      user = some u ∧
      fire.inviteTokens orgId (jsStr token) = some td ∧
      fire.invites orgId (jsStr td.inviteId) = some inv ∧
      (acceptInviteRun token orgId user fire ls sc oracle).fire.members orgId
        u.uid = some md ∧
      (acceptInviteRun token orgId user fire ls sc oracle).fire.orgMemberships
        u.uid orgId = some xd ∧
      md.role = xd.role ∧
      md.role = inv.role.getD "member" := by
  obtain ⟨u, td, inv, fn, ln, hu, hlink, htd, hiid, hinv, hst, hmm, hn1, hn2,
    hcl, hme, hix, hn, heq⟩ := run_done_inv token orgId user fire ls sc oracle n h
  refine ⟨u, td, inv, newMemberDoc u fn ln inv (jsStr td.inviteId),
    newIndexDoc orgId (orgNameOf oracle fire orgId) inv, hu, htd, hinv,
    ?_, ?_, rfl, rfl⟩ <;>
  · rw [heq]
    by_cases hde : oracle.deleteFails = true <;>
      simp [performWrites, finalizeRun, hcl, hme, hix, hde, upd2_same, upd1_same]

/-- C3 witness: scenario A stores role `"member"` on both records. -/
theorem accept_invite_role_consistent_witness :
    ∃ u td inv md xd,
      (some u0 : Option User) = some u ∧
      fireA.inviteTokens "orgA" (jsStr (some "tok123")) = some td ∧
      fireA.invites "orgA" (jsStr td.inviteId) = some inv ∧
      (acceptInviteRun (some "tok123") "orgA" (some u0) fireA ls0 scopeInit
        okOracle).fire.members "orgA" u.uid = some md ∧
      (acceptInviteRun (some "tok123") "orgA" (some u0) fireA ls0 scopeInit
        okOracle).fire.orgMemberships u.uid "orgA" = some xd ∧
      md.role = xd.role ∧
      md.role = inv.role.getD "member" :=
  accept_invite_role_consistent (some "tok123") "orgA" (some u0) fireA ls0
    scopeInit okOracle "Acme Clinic" (by decide)

/-- C4: running the full successful sequence twice in a row for the same
(org, user) pair yields exactly one Member record and one ReverseIndex entry
for that pair — the member and reverse-index stores after the second run are
identical to those after the first, the second run's writes being no-ops in
effect (same document keys, equivalent data; when the first run's cleanup
deleted the invite, the second run stops at `not_found` before writing). -/
theorem accept_invite_idempotent (token : Option String) (orgId : String)
    (user : Option User) (fire : Fire) (ls : LocalStore) (sc : ScopeVal)
    (oracle : Oracle) (n : String)
    (h : (acceptInviteRun token orgId user fire ls sc oracle).outcome = .done n)
    (r1 r2 : RunResult)
    (hr1 : r1 = acceptInviteRun token orgId user fire ls sc oracle)
    (hr2 : r2 = acceptInviteRun token orgId user r1.fire r1.ls r1.localScope
      oracle) :
    r2.fire.members = r1.fire.members ∧
    r2.fire.orgMemberships = r1.fire.orgMemberships ∧
    ∃ u, user = some u ∧
      (∃ md, r1.fire.members orgId u.uid = some md ∧
        r2.fire.members orgId u.uid = some md) ∧
      (∃ xd, r1.fire.orgMemberships u.uid orgId = some xd ∧
        r2.fire.orgMemberships u.uid orgId = some xd) := by
  obtain ⟨u, td, inv, fn, ln, hu, hlink, htd, hiid, hinv, hst, hmm, hn1, hn2,
    hcl, hme, hix, hn, heq⟩ := run_done_inv token orgId user fire ls sc oracle n h
  subst hu
  subst hr2
  subst hr1
  rw [heq]
  obtain ⟨hm1, hx1, ht1, ho1, hu1, hiT, hiF⟩ :=
    performWrites_fire_spec orgId (jsStr td.inviteId) inv u fn ln fire
      (stashedLS token orgId) sc oracle
      (preWriteTrace token orgId (jsStr td.inviteId) u.uid) hcl hme hix
  set A := performWrites orgId (jsStr td.inviteId) inv u fn ln fire
    (stashedLS token orgId) sc oracle
    (preWriteTrace token orgId (jsStr td.inviteId) u.uid) with hAdef
  by_cases hde : oracle.deleteFails = true
  · -- cleanup deletion failed: the second run re-performs every write with
    -- the same keys and equivalent data
    have hkeyT : A.fire.invites orgId (jsStr td.inviteId)
        = some (claimedInvite inv u fn ln) := by
      rw [hiT hde]
      exact upd2_same _ _ _ _
    have hres := resolveNames_eq_of_scope oracle fire A.fire u _ hu1
    have hst1 := statusNotPending_claimedInvite inv u fn ln hst
    have hmm1 : emailMismatchB (claimedInvite inv u fn ln) u = false := by
      rw [emailMismatchB_claimedInvite]
      exact hmm
    have hrun2 : acceptInviteRun token orgId (some u) A.fire A.ls A.localScope
          oracle
        = performWrites orgId (jsStr td.inviteId) (claimedInvite inv u fn ln)
            u fn ln A.fire (stashedLS token orgId) A.localScope oracle
            (preWriteTrace token orgId (jsStr td.inviteId) u.uid) := by
      simp [acceptInviteRun, acceptInviteAuthed, hlink, ht1, htd, hiid, hkeyT,
        hst1, hmm1, hres, hn1, hn2, stashedLS, preWriteTrace]
    obtain ⟨hm2, hx2, ht2, ho2, hu2, hiT2, hiF2⟩ :=
      performWrites_fire_spec orgId (jsStr td.inviteId)
        (claimedInvite inv u fn ln) u fn ln A.fire (stashedLS token orgId)
        A.localScope oracle
        (preWriteTrace token orgId (jsStr td.inviteId) u.uid) hcl hme hix
    have hmd : newMemberDoc u fn ln (claimedInvite inv u fn ln)
        (jsStr td.inviteId) = newMemberDoc u fn ln inv (jsStr td.inviteId) := by
      simp [newMemberDoc, claimedInvite]
    have hxd : newIndexDoc orgId (orgNameOf oracle A.fire orgId)
          (claimedInvite inv u fn ln)
        = newIndexDoc orgId (orgNameOf oracle fire orgId) inv := by
      rw [orgNameOf_congr oracle A.fire fire orgId ho1]
      simp [newIndexDoc, claimedInvite]
    have hmembers : (acceptInviteRun token orgId (some u) A.fire A.ls
        A.localScope oracle).fire.members = A.fire.members := by
      rw [hrun2, hm2, hmd, hm1, upd2_idem]
    have hindex : (acceptInviteRun token orgId (some u) A.fire A.ls
        A.localScope oracle).fire.orgMemberships = A.fire.orgMemberships := by
      rw [hrun2, hx2, hxd, hx1, upd2_idem]
    refine ⟨hmembers, hindex, u, rfl,
      ⟨newMemberDoc u fn ln inv (jsStr td.inviteId), ?_, ?_⟩,
      ⟨newIndexDoc orgId (orgNameOf oracle fire orgId) inv, ?_, ?_⟩⟩
    · rw [hm1]
      exact upd2_same _ _ _ _
    · rw [hmembers, hm1]
      exact upd2_same _ _ _ _
    · rw [hx1]
      exact upd2_same _ _ _ _
    · rw [hindex, hx1]
      exact upd2_same _ _ _ _
  · -- cleanup deletion succeeded: the second run fails at `not_found`
    -- without writing
    have hde0 : oracle.deleteFails = false := by simpa using hde
    have hkeyF : A.fire.invites orgId (jsStr td.inviteId) = none := by
      rw [hiF hde0]
      exact upd2_same _ _ _ _
    have hfire2 : (acceptInviteRun token orgId (some u) A.fire A.ls
        A.localScope oracle).fire = A.fire := by
      simp [acceptInviteRun, acceptInviteAuthed, hlink, ht1, htd, hiid, hkeyF]
    refine ⟨by rw [hfire2], by rw [hfire2], u, rfl,
      ⟨newMemberDoc u fn ln inv (jsStr td.inviteId), ?_, ?_⟩,
      ⟨newIndexDoc orgId (orgNameOf oracle fire orgId) inv, ?_, ?_⟩⟩
    · rw [hm1]
      exact upd2_same _ _ _ _
    · rw [hfire2, hm1]
      exact upd2_same _ _ _ _
    · rw [hx1]
      exact upd2_same _ _ _ _
    · rw [hfire2, hx1]
      exact upd2_same _ _ _ _

/-- C4 witness: scenario A run twice with a failing cleanup deletion. -/
theorem accept_invite_idempotent_witness :
    runA2.fire.members = runA1.fire.members ∧
    runA2.fire.orgMemberships = runA1.fire.orgMemberships ∧
    ∃ u, (some u0 : Option User) = some u ∧
      (∃ md, runA1.fire.members "orgA" u.uid = some md ∧
        runA2.fire.members "orgA" u.uid = some md) ∧
      (∃ xd, runA1.fire.orgMemberships u.uid "orgA" = some xd ∧
        runA2.fire.orgMemberships u.uid "orgA" = some xd) :=
  accept_invite_idempotent (some "tok123") "orgA" (some u0) fireA ls0 scopeInit
    delOracle "Acme Clinic" (by decide) runA1 runA2 rfl rfl

end AcceptInvite
